import Mathlib

/-!
Verification development for the `aiohttp_dynamic` routing library
(`aiohttp_dynamic/routing.py` and `aiohttp_dynamic/middlewares.py`).

The Python source is shallowly embedded: dictionaries become insertion-ordered
association lists, `list.sort(key=functools.cmp_to_key(cmp))` is modelled by
CPython's sorting algorithm restricted to lists shorter than 64 elements
(one `count_run` pass followed by binary insertion sort — exactly what
CPython executes for the list sizes arising in this library), handlers are
opaque identifiers, and a request is the triple (optional host, path, method)
that the source reads from the incoming request object.
-/

namespace AiohttpDynamic

/-! ### CPython `list.sort` with a `cmp_to_key` comparator

`list.sort(key=functools.cmp_to_key(cmp))` compares elements with
`lt x y := cmp x y < 0`.  For `len(list) < 64` CPython computes
`minrun = len(list)`, so the whole sort is: one `count_run` pass over the
initial run (reversing it when it is strictly descending), then
`binarysort` inserting each remaining element into the sorted prefix at the
position found by binary search (`m = l + ((r - l) >> 1)`, descend left when
`lt pivot a[m]`).  The comparator is allowed to fail (Python may raise from
inside a comparison — `DynamicMiddleware.__init__` does), hence the
`Except` plumbing; the pure wrapper `pysort` instantiates the error type
with `Empty`. -/

/-- Errors a modelled Python expression can raise. -/
inductive PyErr where
  | attributeError
deriving DecidableEq, Repr

/-! Python string builtins, modelled over character lists (kept
kernel-reducible so that concrete scenarios evaluate by `decide`). -/

/-- Python `str.upper` (ASCII range, which is all the router compares). -/
def pyToUpper (s : String) : String :=
  ⟨s.toList.map Char.toUpper⟩

/-- Python `str.lower` (ASCII range). -/
def pyToLower (s : String) : String :=
  ⟨s.toList.map Char.toLower⟩

/-- Python `str.endswith`. -/
def pyEndsWith (s suffix : String) : Bool :=
  suffix.toList.isSuffixOf s.toList

/-- Python `c in s` for a single character. -/
def pyContainsChar (s : String) (c : Char) : Bool :=
  s.toList.contains c

/-- Binary search of CPython's `binarysort`: smallest insertion point found
by midpoint bisection with `lt pivot a[mid]` deciding the half to keep.
Structural recursion on a fuel argument (each step shrinks `r - l`, so
`r - l` units of fuel always suffice; the fuel-exhausted arm is
unreachable). -/
def bisectFuelE (lt : α → α → Except ε Bool) (pivot : α) (acc : List α) :
    Nat → Nat → Nat → Except ε Nat
  | 0, l, _ => .ok l
  | fuel + 1, l, r =>
    if l < r then
      let mid := l + (r - l) / 2
      match lt pivot (acc.getD mid pivot) with
      | .error e => .error e
      | .ok true => bisectFuelE lt pivot acc fuel l mid
      | .ok false => bisectFuelE lt pivot acc fuel (mid + 1) r
    else
      .ok l

/-- Entry point of the binary search over `[l, r)`. -/
def bisectE (lt : α → α → Except ε Bool) (pivot : α) (acc : List α)
    (l r : Nat) : Except ε Nat :=
  bisectFuelE lt pivot acc (r - l) l r

/-- Insert `x` at position `pos` (kept in bounds by the caller). -/
def insertAt (l : List α) (pos : Nat) (x : α) : List α :=
  l.take pos ++ x :: l.drop pos

/-- `binarysort`: extend the sorted prefix `acc` by inserting each remaining
element at its binary-search position. -/
def binsortE (lt : α → α → Except ε Bool) (acc : List α) :
    List α → Except ε (List α)
  | [] => .ok acc
  | x :: rest =>
    match bisectE lt x acc 0 acc.length with
    | .error e => .error e
    | .ok pos => binsortE lt (insertAt acc pos x) rest

/-- Length of the strictly descending continuation of a run
(`count_run`, descending arm: continue while `lt next prev`). -/
def runDescE (lt : α → α → Except ε Bool) (prev : α) :
    List α → Except ε Nat
  | [] => .ok 0
  | x :: xs =>
    match lt x prev with
    | .error e => .error e
    | .ok true => (runDescE lt x xs).map (· + 1)
    | .ok false => .ok 0

/-- Length of the weakly ascending continuation of a run
(`count_run`, ascending arm: continue while `¬ lt next prev`). -/
def runAscE (lt : α → α → Except ε Bool) (prev : α) :
    List α → Except ε Nat
  | [] => .ok 0
  | x :: xs =>
    match lt x prev with
    | .error e => .error e
    | .ok true => .ok 0
    | .ok false => (runAscE lt x xs).map (· + 1)

/-- CPython `list.sort` for lists of fewer than 64 elements: find the initial
run (reversed in place when strictly descending), then binary-insert the rest.
The first action on any list of two or more elements is the comparison
`lt a[1] a[0]`. -/
def pysortE (lt : α → α → Except ε Bool) (l : List α) : Except ε (List α) :=
  match l with
  | [] => .ok []
  | [a] => .ok [a]
  | a :: b :: rest =>
    match lt b a with
    | .error e => .error e
    | .ok true =>
      match runDescE lt b rest with
      | .error e => .error e
      | .ok k =>
        binsortE lt ((l.take (2 + k)).reverse) (l.drop (2 + k))
    | .ok false =>
      match runAscE lt b rest with
      | .error e => .error e
      | .ok k =>
        binsortE lt (l.take (2 + k)) (l.drop (2 + k))

/-- `list.sort` with a comparator that cannot fail. -/
def pysort (lt : α → α → Bool) (l : List α) : List α :=
  match pysortE (ε := Empty) (fun a b => .ok (lt a b)) l with
  | .ok r => r
  | .error e => e.elim

/-! ### Percent-encoding (yarl path quoter, used by `_requote_path`)

`_quote_path` (routing.py line 35) builds `yarl.URL(path=value).raw_path`,
i.e. applies yarl's path quoter (modelled here for yarl ≥ 1.6): characters in
unreserved ∪ kept sub-delims ∪ `@:` (safe) ∪ `/+` (protected) pass through,
an existing `%XX` hex sequence is kept with the hex digits upper-cased, and
every other character is UTF-8 percent-encoded.  `_requote_path` (line 45)
then undoes the encoding of bare `%` characters when the input contained
`%`. -/

/-- Characters yarl's path quoter passes through unchanged. -/
def pathAllowedChar (c : Char) : Bool :=
  c.isAlphanum
    || c ∈ ['-', '.', '_', '~']
    || c ∈ ['!', '$', '\'', '(', ')', '*', ',']
    || c ∈ ['@', ':']
    || c ∈ ['/', '+']

/-- Upper-case hexadecimal digit of `n < 16`. -/
def hexUpper (n : Nat) : Char :=
  if n < 10 then Char.ofNat ('0'.toNat + n) else Char.ofNat ('A'.toNat + (n - 10))

/-- `%XX` encoding of one byte. -/
def pctEncodeByte (b : UInt8) : List Char :=
  ['%', hexUpper (b.toNat / 16), hexUpper (b.toNat % 16)]

def isHexDigitChar (c : Char) : Bool :=
  c.isDigit || ('A' ≤ c && c ≤ 'F') || ('a' ≤ c && c ≤ 'f')

/-- One quoting step: the characters emitted for the head of the input and
the number of input characters consumed (1, or 3 for a kept `%XX`
sequence). -/
def quoteStep (c : Char) (rest : List Char) : List Char × Nat :=
  if c = '%' then
    match rest with
    | a :: b :: _ =>
      if isHexDigitChar a && isHexDigitChar b then
        (['%', a.toUpper, b.toUpper], 3)
      else
        (pctEncodeByte 37, 1)
    | _ => (pctEncodeByte 37, 1)
  else if pathAllowedChar c then
    ([c], 1)
  else
    (((String.utf8EncodeChar c).map pctEncodeByte).flatten, 1)

/-- yarl path quoting over a character list (structural recursion on a fuel
argument; every step consumes at least one input character, so `l.length`
units of fuel always suffice and the fuel-exhausted arm is unreachable). -/
def quotePathFuel : Nat → List Char → List Char
  | 0, _ => []
  | _, [] => []
  | fuel + 1, c :: rest =>
    let (out, consumed) := quoteStep c rest
    out ++ quotePathFuel fuel (rest.drop (consumed - 1))

/-- yarl path quoting over a character list. -/
def quotePathChars (l : List Char) : List Char :=
  quotePathFuel l.length l

/-- `_quote_path` (routing.py line 35). -/
def quotePath (s : String) : String :=
  ⟨quotePathChars s.toList⟩

/-- `_requote_path` (routing.py line 45). -/
def requotePath (value : String) : String :=
  let result := quotePath value
  if pyContainsChar value '%' then result.replace "%25" "%" else result

/-! ### Requests and method tables -/

/-- The part of an incoming request the router inspects: the optional `Host`
header, the path, and the method (routing.py reads exactly these three). -/
structure Request where
  host : Option String
  path : String
  method : String
deriving DecidableEq, Repr

/-- `aiohttp.web_urldispatcher.ResourceRoute(method, handler, resource)`: the
stored method name and the handler capability (an opaque identifier here). -/
structure ResourceRoute where
  method : String
  handler : Nat
deriving DecidableEq, Repr

/-- A Python `dict` keyed by method name: an insertion-ordered association
list with unique keys. -/
abbrev MethodDict := List (String × ResourceRoute)

/-- `k in d`. -/
def dictContains (d : MethodDict) (k : String) : Bool :=
  d.any (fun p => p.1 == k)

/-- `d[k]` as an option. -/
def dictGet? (d : MethodDict) (k : String) : Option ResourceRoute :=
  (d.find? (fun p => p.1 == k)).map (fun p => p.2)

/-- `d[k] = v`: overwrite in place if the key exists (keeping its position),
append otherwise — Python dict assignment. -/
def dictSet (d : MethodDict) (k : String) (v : ResourceRoute) : MethodDict :=
  if dictContains d k then
    d.map (fun p => if p.1 == k then (k, v) else p)
  else
    d ++ [(k, v)]

/-- `del d[k]` (callers check presence first). -/
def dictDel (d : MethodDict) (k : String) : MethodDict :=
  d.eraseP (fun p => p.1 == k)

/-- `hdrs.METH_ANY`. -/
def methAny : String := "*"

/-- `hdrs.METH_ALL` from aiohttp. -/
def methAllList : List String :=
  ["CONNECT", "HEAD", "GET", "DELETE", "OPTIONS", "PATCH", "POST", "PUT", "TRACE"]

/-! ### `AbstractPathRouter` / `PlainPathRouter`

A path router couples the raw registration template, the compiled full-match
function, and the per-method route table.  `PlainPathRouter.match_info`
(routing.py line 370) compares the requoted template with the path;
`raw_match` (lines 364 and 460) is plain string equality on the raw template
for both router kinds.  The compiled matcher is carried as a function field so
that theorems about `DomainRouter.resolve` quantify over arbitrary matcher
behaviour (covering `DynamicPathRouter`, whose matching is Python's `re`
engine). -/

structure PathRouter where
  rawPath : String
  matchFn : String → Option (List (String × String))
  routes : MethodDict

/-- `PlainPathRouter.__init__` + `match_info` (routing.py lines 319-374). -/
def mkPlain (path : String) : PathRouter :=
  { rawPath := path
    matchFn := fun p => if requotePath path = p then some [] else none
    routes := [] }

/-- Placeholder for `DynamicPathRouter` (routing.py lines 376-471): its
`match_info` delegates to Python's `re` engine, which is external to this
repository and not modelled; no theorem in this file registers a template
containing brace syntax, so this constructor is never reached from any
claim's statement.  Its `raw_match` (string equality on the raw template) is
what the CRUD surface uses and is modelled faithfully. -/
def mkDynUnmodelled (path : String) : PathRouter :=
  { rawPath := path
    matchFn := fun _ => none
    routes := [] }

/-- `add_router`'s template classification (routing.py lines 557, 567):
`'{' in raw_path or '}' in raw_path or ROUTE_RE.search(raw_path)` — every
`ROUTE_RE` match contains a `'{'`, so the regex disjunct adds nothing. -/
def isDynamicTemplate (p : String) : Bool :=
  pyContainsChar p '{' || pyContainsChar p '}'

/-- The router `add_router` constructs for a raw path (routing.py lines
556-570). -/
def compilePath (rawPath : String) : PathRouter :=
  if isDynamicTemplate rawPath then mkDynUnmodelled rawPath else mkPlain rawPath

/-- `AbstractPathRouter.raw_match` (routing.py lines 364, 460). -/
def rawMatch (r : PathRouter) (path : String) : Bool :=
  r.rawPath == path

/-- `AbstractPathRouter.add_handler` (routing.py lines 79-122).  Note line
115: when a strict method is registered, no strict entry exists, a widecast
entry exists and `overwrite_widecast` is true, the new route (carrying the
strict method name) is stored under the `METH_ANY` key — the widecast slot
is overwritten in place, not deleted. -/
def addHandler (r : PathRouter) (method : String) (handler : Nat)
    (overwrite : Bool := true) (overwriteWidecast : Bool := true) :
    Bool × PathRouter :=
  let m := pyToUpper method
  if m = methAny then
    if dictContains r.routes methAny then
      if overwrite then
        (true, { r with routes := dictSet r.routes methAny ⟨m, handler⟩ })
      else
        (false, r)
    else
      (true, { r with routes := dictSet r.routes methAny ⟨m, handler⟩ })
  else
    if dictContains r.routes m then
      if overwrite then
        (true, { r with routes := dictSet r.routes m ⟨m, handler⟩ })
      else
        (false, r)
    else
      if dictContains r.routes methAny then
        if overwriteWidecast then
          (true, { r with routes := dictSet r.routes methAny ⟨m, handler⟩ })
        else
          (true, { r with routes := dictSet r.routes m ⟨m, handler⟩ })
      else
        (true, { r with routes := dictSet r.routes m ⟨m, handler⟩ })

/-- `AbstractPathRouter.get_handler_route` (routing.py lines 184-202): strict
lookup first, then the widecast slot when `match_widecast`. -/
def getHandlerRoute (r : PathRouter) (method : String)
    (matchWidecast : Bool := true) : Option ResourceRoute :=
  let m := pyToUpper method
  match dictGet? r.routes m with
  | some rt => some rt
  | none => if matchWidecast then dictGet? r.routes methAny else none

/-- `AbstractPathRouter.del_handler` (routing.py lines 224-235). -/
def prDelHandler (r : PathRouter) (method : String) : Bool × PathRouter :=
  let m := pyToUpper method
  if dictContains r.routes m then
    (true, { r with routes := dictDel r.routes m })
  else
    (false, r)

/-- `set(r.allowed_methods)` as computed inside `resolve` (routing.py lines
259, 613): the full method set when a widecast entry exists, the registered
keys otherwise. -/
def allowedSet (r : PathRouter) : Finset String :=
  (if dictContains r.routes methAny then methAllList
   else r.routes.map (fun p => p.1)).toFinset

/-! ### `DomainRouter` -/

/-- A resolved route: `UrlMappingMatchInfo(match_info, route)`. -/
structure MatchedRoute where
  matchInfo : List (String × String)
  route : ResourceRoute
deriving DecidableEq, Repr

/-- Glob match of a `MaskDomain` pattern (aiohttp compiles the canonical
domain with `'.' → '\.'`, `'*' → '.*'` and uses `fullmatch`): `'*'` matches
any character sequence, every other pattern character is literal.
Structural recursion on a fuel argument (every step shrinks the pattern or
the string, so `p.length + s.length` steps always suffice). -/
def globMatchFuel : Nat → List Char → List Char → Bool
  | 0, _, _ => false
  | fuel + 1, p, s =>
    match p, s with
    | [], [] => true
    | [], _ :: _ => false
    | '*' :: ps, s =>
      globMatchFuel fuel ps s ||
        (match s with
         | [] => false
         | _ :: s' => globMatchFuel fuel ('*' :: ps) s')
    | q :: ps, c :: s' => q == c && globMatchFuel fuel ps s'
    | _ :: _, [] => false

def globMatch (p s : List Char) : Bool :=
  globMatchFuel (p.length + s.length + 1) p s

/-- `DomainRouter` (routing.py lines 474-621): the raw domain string, the
compiled `aiohttp` domain rule (`MaskDomain` when the string contains `'*'`,
`Domain` otherwise — both canonicalise to lower case; trailing-dot and port
normalisation are omitted, no domain in this file uses them), and the ordered
path-router list. -/
structure DomainRouter where
  rawDomain : String
  isMask : Bool
  canonicalDomain : String
  routers : List PathRouter

/-- `DomainRouter.__init__` (routing.py lines 480-489). -/
def mkDomainRouter (domain : String) : DomainRouter :=
  { rawDomain := domain
    isMask := pyContainsChar domain '*'
    canonicalDomain := pyToLower domain
    routers := [] }

/-- `DomainRouter.raw_domain_match` (routing.py line 506). -/
def rawDomainMatch (dr : DomainRouter) (rawDomain : String) : Bool :=
  dr.rawDomain == rawDomain

/-- `DomainRouter.domain_match` (routing.py line 512): `None` matches
nothing; otherwise `aiohttp`'s `Domain.match_domain` (lower-cased equality)
or `MaskDomain.match_domain` (regex full match of the mask). -/
def domainMatch (dr : DomainRouter) (host : Option String) : Bool :=
  match host with
  | none => false
  | some h =>
    if dr.isMask then globMatch dr.canonicalDomain.toList h.toList
    else pyToLower h == dr.canonicalDomain

/-- `DomainRouter.add_router` (routing.py lines 547-572), returning the
updated domain together with the index of the created-or-found router. -/
def addRouterIdx (dr : DomainRouter) (rawPath : String)
    (overwrite : Bool := true) : DomainRouter × Nat :=
  match dr.routers.findIdx? (fun r => rawMatch r rawPath) with
  | some i =>
    if overwrite then
      ({ dr with routers := dr.routers.set i (compilePath rawPath) }, i)
    else
      (dr, i)
  | none =>
    ({ dr with routers := dr.routers ++ [compilePath rawPath] },
      dr.routers.length)

/-- `DomainRouter.del_router` (routing.py lines 574-585). -/
def delRouter (dr : DomainRouter) (rawPath : String) : Bool × DomainRouter :=
  if dr.routers.any (fun r => rawMatch r rawPath) then
    (true, { dr with routers := dr.routers.eraseP (fun r => rawMatch r rawPath) })
  else
    (false, dr)

/-- Loop body of `DomainRouter.resolve` (routing.py lines 600-621). -/
def domainResolveGo (req : Request) :
    List PathRouter → Option MatchedRoute × Finset String
  | [] => (none, ∅)
  | r :: rest =>
    match r.matchFn req.path with
    | none => domainResolveGo req rest
    | some mi =>
      match getHandlerRoute r (pyToUpper req.method) with
      | none => (none, allowedSet r)
      | some rt => (some ⟨mi, rt⟩, allowedSet r)

/-- `DomainRouter.resolve` (routing.py lines 594-621): first path router
whose `match_info` succeeds wins; its method table alone decides the
outcome.  All failures are ordinary return values, never exceptions. -/
def domainResolve (dr : DomainRouter) (req : Request) :
    Option MatchedRoute × Finset String :=
  domainResolveGo req dr.routers

/-! ### `DynamicRouter` -/

/-- The top-level router state: the ordered domain list. -/
abbrev DynState := List DomainRouter

/-- The domain-sort comparator (routing.py lines 741, 750):
`cmp(x, y) = 1 if x.domain_match(y.raw_domain) else -1`, so under
`cmp_to_key`, `x < y` iff `not (x.domain_match (y.raw_domain))`. -/
def domainSortLt (x y : DomainRouter) : Bool :=
  ! domainMatch x (some y.rawDomain)

/-- `DynamicRouter.add_domain` (routing.py lines 723-752): find by raw
domain (replacing with a fresh `DomainRouter` when `overwrite`), else
append; re-sort the domain list after any insertion or replacement. -/
def addDomain (s : DynState) (rawDomain : String)
    (overwrite : Bool := true) : DynState :=
  match s.findIdx? (fun r => rawDomainMatch r rawDomain) with
  | some i =>
    if overwrite then
      pysort domainSortLt (s.set i (mkDomainRouter rawDomain))
    else
      s
  | none =>
    pysort domainSortLt (s ++ [mkDomainRouter rawDomain])

/-- `DynamicRouter.get_domain` (routing.py lines 754-763) as an index. -/
def getDomainIdx? (s : DynState) (rawDomain : String) : Option Nat :=
  s.findIdx? (fun r => rawDomainMatch r rawDomain)

/-- `DynamicRouter.del_domain` (routing.py lines 776-788). -/
def delDomain (s : DynState) (rawDomain : String) : Bool × DynState :=
  if s.any (fun r => rawDomainMatch r rawDomain) then
    (true, s.eraseP (fun r => rawDomainMatch r rawDomain))
  else
    (false, s)

/-- Loop of `DynamicRouter.resolve` (routing.py lines 700-707): delegate to
the first domain matching the request's `Host` header. -/
def dynResolveGo (req : Request) : DynState → Option MatchedRoute × Finset String
  | [] => (none, ∅)
  | r :: rest =>
    if domainMatch r req.host then domainResolve r req
    else dynResolveGo req rest

/-- `DynamicRouter.resolve` (routing.py lines 694-707). -/
def dynResolve (s : DynState) (req : Request) :
    Option MatchedRoute × Finset String :=
  dynResolveGo req s

/-- `DynamicRouter.add_handler` (routing.py lines 799-808):
`add_domain(domain, overwrite=False).add_router(path, overwrite=False)
.add_handler(method, handler, overwrite, overwrite_widecast)`.  The Python
call mutates the domain object held inside the list; the model applies the
update at the located indices. -/
def dynAddHandler (s : DynState) (method path : String) (handler : Nat)
    (domain : String := "*") (overwrite : Bool := true)
    (overwriteWidecast : Bool := true) : Bool × DynState :=
  let s1 := addDomain s domain false
  match getDomainIdx? s1 domain with
  | none => (false, s1)
  | some i =>
    let dr := s1.getD i (mkDomainRouter domain)
    let (dr1, j) := addRouterIdx dr path false
    let pr := dr1.routers.getD j (compilePath path)
    let (b, pr1) := addHandler pr method handler overwrite overwriteWidecast
    let dr2 := { dr1 with routers := dr1.routers.set j pr1 }
    (b, s1.set i dr2)

/-- `DynamicRouter.del_handler` (routing.py lines 856-878).  After a
successful per-method deletion it removes the path router when its method
table became empty, and then — line 873, `if len(domain_router.routes):` —
deletes the whole domain whenever the domain's router list is *non-empty*
(Python truthiness), leaving a fully emptied domain in place. -/
def dynDelHandler (s : DynState) (method path : String)
    (domain : String := "*") : Bool × DynState :=
  match getDomainIdx? s domain with
  | none => (false, s)
  | some i =>
    let dr := s.getD i (mkDomainRouter domain)
    match dr.routers.findIdx? (fun r => rawMatch r path) with
    | none => (false, s)
    | some j =>
      let pr := dr.routers.getD j (compilePath path)
      let (deleted, pr1) := prDelHandler pr method
      if deleted then
        let dr1 := { dr with routers := dr.routers.set j pr1 }
        let dr2 :=
          if pr1.routes.length = 0 then (delRouter dr1 path).2 else dr1
        let s1 := s.set i dr2
        if dr2.routers.length ≠ 0 then (true, (delDomain s1 domain).2)
        else (true, s1)
      else
        (false, s)

/-! ### `DynamicMiddleware` (middlewares.py)

A middleware handler is a callable `h(request, handler)`; responses are
modelled as traces (`List String`) so invocation order is observable. -/

/-- A terminal handler: request to response. -/
abbrev MwHandler := Request → List String

/-- A middleware callable: `h(request, handler)`. -/
abbrev MwFunc := Request → MwHandler → List String

/-- One `(domain_suffix, middleware_name, middleware_handler)` tuple of
`DynamicMiddleware._handlers` (middlewares.py line 37). -/
structure MwEntry where
  suffix : String
  name : Option String
  fn : MwFunc

/-- The `__init__` sort comparator (middlewares.py line 49):
`lambda x, y: 1 if y.endswith(x) else -1` where `x` and `y` are the handler
*tuples* — tuples have no `endswith` attribute, so evaluating the comparator
raises `AttributeError`. -/
def mwInitCmpLt (_ _ : MwEntry) : Except PyErr Bool :=
  .error .attributeError

/-- `DynamicMiddleware.__init__` (middlewares.py lines 39-49): build the
entry list from the unnamed then named middlewares, then sort it with the
tuple comparator of line 49 (which raises on its first comparison). -/
def dynMwInit (middlewares : List MwFunc) (named : List MwEntry := []) :
    Except PyErr (List MwEntry) :=
  let handlers :=
    middlewares.map (fun m => { suffix := "", name := none, fn := m }) ++ named
  pysortE mwInitCmpLt handlers

/-- The `add_handler`/`add_named_handler` sort comparator (middlewares.py
lines 71, 96, 106): `cmp(x, y) = 1 if y[0].endswith(x[0]) else -1`, so under
`cmp_to_key`, `x < y` iff `¬ y[0].endswith(x[0])`. -/
def mwCmpLt (x y : MwEntry) : Bool :=
  ! pyEndsWith y.suffix x.suffix

/-- `DynamicMiddleware.add_named_handler` (middlewares.py lines 75-108):
reject a `None` domain; replace in place the first entry with the same
non-`None` name when `overwrite`, else append; re-sort after any mutation. -/
def addNamedHandler (hs : List MwEntry) (mw : MwFunc) (name : Option String)
    (domain : Option String := some "") (overwrite : Bool := true) :
    Bool × List MwEntry :=
  match domain with
  | none => (false, hs)
  | some d =>
    match name with
    | some n =>
      match hs.findIdx? (fun m => m.name == some n) with
      | some i =>
        if overwrite then
          (true, pysort mwCmpLt (hs.set i ⟨d, some n, mw⟩))
        else
          (false, hs)
      | none => (true, pysort mwCmpLt (hs ++ [⟨d, some n, mw⟩]))
    | none => (true, pysort mwCmpLt (hs ++ [⟨d, none, mw⟩]))

/-- Wrapping step of `__call__`:
`handler = functools.partial(h, handler=handler)` (middlewares.py lines 246,
253; `functools.update_wrapper` only copies metadata). -/
def mwWrap (e : MwEntry) (handler : MwHandler) : MwHandler :=
  fun req => e.fn req handler

/-- `DynamicMiddleware.__call__` (middlewares.py lines 240-255): with no
`Host` header, wrap every entry in reverse list order; with a host, wrap
exactly the entries whose suffix the host ends with; then invoke the
accumulated handler. -/
def dynMwCall (hs : List MwEntry) (req : Request) (handler : MwHandler) :
    List String :=
  match req.host with
  | none =>
    (hs.reverse.foldl (fun acc e => mwWrap e acc) handler) req
  | some d =>
    (hs.reverse.foldl
      (fun acc e => if pyEndsWith d e.suffix then mwWrap e acc else acc)
      handler) req

/-- A trace-recording middleware: records `tag`, then calls the inner
handler. -/
def traceMw (tag : String) : MwFunc :=
  fun req inner => tag :: inner req

/-- A trace-recording terminal handler. -/
def terminalHandler : MwHandler :=
  fun _ => ["terminal"]

/-! ### Concrete scenario states used by the claim theorems -/

/-- Only an `ANY` handler registered for `/a` under the catch-all domain. -/
def c1StateAny (h1 : Nat) : DynState :=
  (dynAddHandler [] "*" "/a" h1 "*").2

/-- `c1StateAny` followed by a strict `GET` registration with
`overwrite_widecast = True`. -/
def c1StateStrict (h1 h2 : Nat) : DynState :=
  (dynAddHandler (c1StateAny h1) "GET" "/a" h2 "*").2

/-- Handler 10 registered under `*.example.com`, then handler 11 under
`api.example.com`, both at `GET /p`. -/
def c2StateMaskFirst : DynState :=
  (dynAddHandler (dynAddHandler [] "GET" "/p" 10 "*.example.com").2
    "GET" "/p" 11 "api.example.com").2

/-- Same registrations in the opposite order. -/
def c2StateExactFirst : DynState :=
  (dynAddHandler (dynAddHandler [] "GET" "/p" 11 "api.example.com").2
    "GET" "/p" 10 "*.example.com").2

/-- A domain holding a path matcher whose method table is empty (reachable
through `DomainRouter.add_router`, which registers a matcher without any
handler). -/
def c3EmptyTableDomain : DomainRouter :=
  { mkDomainRouter "*" with routers := [mkPlain "/a"] }

/-- A domain under `d.com` whose `/x` matcher has exactly a `GET` handler. -/
def c3WitnessRouter : PathRouter :=
  (addHandler (mkPlain "/x") "GET" 5).2

def c3WitnessDomain : DomainRouter :=
  { mkDomainRouter "d.com" with routers := [c3WitnessRouter] }

/-- Domain `*` with matchers `/a` (handler 0 at `GET`) and `/b` (handler 1
at `GET`). -/
def c4State : DynState :=
  (dynAddHandler (dynAddHandler [] "GET" "/a" 0 "*").2 "GET" "/b" 1 "*").2

/-- Domain `*` with the single matcher `/a` (handler 0 at `GET`). -/
def c4StateSingle : DynState :=
  (dynAddHandler [] "GET" "/a" 0 "*").2

/-- Named interceptors `A` (suffix `""`) then `B` (suffix `"example.com"`),
inserted in that order. -/
def c6Entries : List MwEntry :=
  (addNamedHandler
    (addNamedHandler [] (traceMw "A") (some "A") (some "")).2
    (traceMw "B") (some "B") (some "example.com")).2

/-- A domain table for `*` holding a `GET /a` handler (used to show that
resolution does not continue past the first matching domain). -/
def c7StarDomain : DomainRouter :=
  { mkDomainRouter "*" with routers := [(addHandler (mkPlain "/a") "GET" 7).2] }

/-- An entry built from a suffix/tag specification with a trace-recording
interceptor. -/
def traceEntry (spec : String × String) : MwEntry :=
  { suffix := spec.1, name := none, fn := traceMw spec.2 }

/-- The path router of `c1StateAny` in explicit form: only the widecast slot
is populated. -/
def c1Router (h1 : Nat) : PathRouter :=
  { rawPath := "/a"
    matchFn := (mkPlain "/a").matchFn
    routes := [(methAny, ⟨methAny, h1⟩)] }

/-- The domain table of `c1StateAny` in explicit form. -/
def c1Dom (h1 : Nat) : DomainRouter :=
  { rawDomain := "*"
    isMask := true
    canonicalDomain := "*"
    routers := [c1Router h1] }

/-! ## Helper lemmas -/

theorem pysort_singleton (lt : α → α → Bool) (a : α) : pysort lt [a] = [a] := rfl

/-- A two-element list whose second element compares below the first is
treated as a strictly descending run by `count_run` and reversed.  With the
comparators of this library — which never report a tie — this is exactly
what happens to a pair of equal-specificity entries. -/
theorem pysort_pair_swap (lt : α → α → Bool) (x y : α) (h : lt y x = true) :
    pysort lt [x, y] = [y, x] := by
  simp [pysort, pysortE, runDescE, binsortE, h]

theorem globMatchFuel_star (fuel : Nat) (l : List Char)
    (h : l.length + 2 ≤ fuel) : globMatchFuel fuel ['*'] l = true := by
  induction fuel generalizing l with
  | zero => omega
  | succ f ih =>
    cases l with
    | nil =>
      have hf : 1 ≤ f := by omega
      obtain ⟨f', rfl⟩ : ∃ f', f = f' + 1 := ⟨f - 1, by omega⟩
      simp [globMatchFuel]
    | cons c s =>
      have hs : s.length + 2 ≤ f := by simp at h; omega
      simp [globMatchFuel, ih s hs]

/-- The catch-all mask pattern `*` matches every host. -/
theorem globMatch_star (l : List Char) : globMatch ['*'] l = true := by
  unfold globMatch
  exact globMatchFuel_star _ _ (by simp; omega)

/-- An explicit host always matches the catch-all domain `*`. -/
theorem domainMatch_star (h : String) :
    domainMatch (mkDomainRouter "*") (some h) = true := by
  simp [domainMatch, mkDomainRouter, pyContainsChar, pyToLower]
  exact globMatch_star _

/-- A method table whose only entry is the widecast slot serves that entry
for every request method. -/
theorem getHandlerRoute_only_any (rp : PathRouter) (rt : ResourceRoute)
    (m : String) (hr : rp.routes = [(methAny, rt)]) :
    getHandlerRoute rp m = some rt := by
  unfold getHandlerRoute dictGet?
  rw [hr]
  by_cases hm : methAny = pyToUpper m
  · simp [List.find?, ← hm]
  · have hb : (methAny == pyToUpper m) = false := beq_eq_false_iff_ne.mpr hm
    simp [List.find?, hb]

/-- `allowed_methods` is non-empty whenever the method table is. -/
theorem allowedSet_ne_empty (r : PathRouter) (h : r.routes ≠ []) :
    allowedSet r ≠ ∅ := by
  unfold allowedSet
  split
  · exact Finset.ne_empty_of_mem (by simp [methAllList] : "CONNECT" ∈ methAllList.toFinset)
  · cases hr : r.routes with
    | nil => exact absurd hr h
    | cons p rest =>
      exact Finset.ne_empty_of_mem (a := p.1) (by simp)

/-- `DomainRouter.resolve` yields the 404-equivalent empty result when no
matcher matches. -/
theorem domainResolveGo_none (req : Request) (rs : List PathRouter)
    (h : ∀ r ∈ rs, r.matchFn req.path = none) :
    domainResolveGo req rs = (none, ∅) := by
  induction rs with
  | nil => rfl
  | cons r rest ih =>
    have hr := h r (by simp)
    simp [domainResolveGo, hr]
    exact ih fun x hx => h x (by simp [hx])

/-- Matchers whose full match fails are skipped. -/
theorem domainResolveGo_skip (req : Request) (pre rest : List PathRouter)
    (h : ∀ x ∈ pre, x.matchFn req.path = none) :
    domainResolveGo req (pre ++ rest) = domainResolveGo req rest := by
  induction pre with
  | nil => rfl
  | cons x pre' ih =>
    have hx := h x (by simp)
    simp [domainResolveGo, hx]
    exact ih fun y hy => h y (by simp [hy])

/-- Domains whose `domain_match` fails are skipped. -/
theorem dynResolveGo_skip (req : Request) (pre rest : DynState)
    (h : ∀ x ∈ pre, domainMatch x req.host = false) :
    dynResolveGo req (pre ++ rest) = dynResolveGo req rest := by
  induction pre with
  | nil => rfl
  | cons x pre' ih =>
    have hx := h x (by simp)
    simp [dynResolveGo, hx]
    exact ih fun y hy => h y (by simp [hy])

/-- Resolution delegates to the head domain when it matches the host. -/
theorem dynResolve_head (d : DomainRouter) (rest : DynState) (req : Request)
    (h : domainMatch d req.host = true) :
    dynResolve (d :: rest) req = domainResolve d req := by
  simp [dynResolve, dynResolveGo, h]

/-- Resolution of a single-matcher domain whose matcher matches and serves
the method. -/
theorem domainResolve_single (dr : DomainRouter) (rp : PathRouter)
    (req : Request) (mi : List (String × String)) (rt : ResourceRoute)
    (hr : dr.routers = [rp]) (hm : rp.matchFn req.path = some mi)
    (hh : getHandlerRoute rp (pyToUpper req.method) = some rt) :
    domainResolve dr req = (some ⟨mi, rt⟩, allowedSet rp) := by
  unfold domainResolve
  rw [hr]
  simp [domainResolveGo, hm, hh]

/-! ## Claim theorems -/

/-- C1, counterexample.  With only an `ANY` handler for `/a` and a strict
`GET` handler then registered with `overwrite_widecast = True`, the claim
says `resolve(host, "/a", "POST")` returns no handler with allowed-methods
`{GET}`; on the code the resolve still returns a handler, and the
allowed-methods set is not `{GET}`. -/
theorem c1_counterexample :
    (dynResolve (c1StateStrict 0 1) ⟨some "hst.example", "/a", "POST"⟩).1 ≠ none ∧
    (dynResolve (c1StateStrict 0 1) ⟨some "hst.example", "/a", "POST"⟩).2
      ≠ ({"GET"} : Finset String) := by
  constructor
  · decide
  · decide

/-- C1, amended.  With only an `ANY` handler registered for `/a`, resolving
any method returns that handler.  Registering a strict `GET` handler
afterwards with `overwrite_widecast = True` overwrites the handler stored in
the widecast slot in place (routing.py line 115 assigns to the `METH_ANY`
key): the table keeps its single widecast key, now holding a route that
records method `GET` and the new handler, so a subsequent resolve for `POST`
returns the new handler and the allowed-methods set is the full method set,
not `{GET}`. -/
theorem c1_amended :
    (∀ method : String,
      (dynResolve (c1StateAny 0) ⟨some "hst.example", "/a", method⟩).1
        = some ⟨[], ⟨methAny, 0⟩⟩) ∧
    (c1StateStrict 0 1).map (fun d => d.routers.map (fun r => r.routes))
      = [[[("*", ⟨"GET", 1⟩)]]] ∧
    dynResolve (c1StateStrict 0 1) ⟨some "hst.example", "/a", "POST"⟩
      = (some ⟨[], ⟨"GET", 1⟩⟩, methAllList.toFinset) := by
  refine ⟨?_, by decide, by decide⟩
  intro method
  have hstate : c1StateAny 0 = [c1Dom 0] := rfl
  rw [hstate,
    dynResolve_head _ _ _
      (show domainMatch (c1Dom 0) (some "hst.example") = true from by decide),
    domainResolve_single (c1Dom 0) (c1Router 0) _ [] ⟨methAny, 0⟩ rfl
      (show (c1Router 0).matchFn "/a" = some [] from by decide)
      (getHandlerRoute_only_any _ _ _ rfl)]

/-- Witness for `c1_amended` at the method `PUT`. -/
theorem c1_witness :
    (dynResolve (c1StateAny 0) ⟨some "hst.example", "/a", "PUT"⟩).1
      = some ⟨[], ⟨methAny, 0⟩⟩ :=
  c1_amended.1 "PUT"

/-- C2: with `*.example.com` and `api.example.com` both registered (in
either order), the domain list is sorted exact-first, a request for host
`api.example.com` resolves against the exact domain's table (handler 11)
and a request for `other.example.com` falls back to the mask domain's table
(handler 10). -/
theorem c2_domain_priority :
    c2StateMaskFirst.map (fun d => d.rawDomain)
      = ["api.example.com", "*.example.com"] ∧
    c2StateExactFirst.map (fun d => d.rawDomain)
      = ["api.example.com", "*.example.com"] ∧
    (dynResolve c2StateMaskFirst ⟨some "api.example.com", "/p", "GET"⟩).1
      = some ⟨[], ⟨"GET", 11⟩⟩ ∧
    (dynResolve c2StateMaskFirst ⟨some "other.example.com", "/p", "GET"⟩).1
      = some ⟨[], ⟨"GET", 10⟩⟩ ∧
    (dynResolve c2StateExactFirst ⟨some "api.example.com", "/p", "GET"⟩).1
      = some ⟨[], ⟨"GET", 11⟩⟩ ∧
    (dynResolve c2StateExactFirst ⟨some "other.example.com", "/p", "GET"⟩).1
      = some ⟨[], ⟨"GET", 10⟩⟩ := by
  refine ⟨by decide, by decide, by decide, by decide, by decide, by decide⟩

/-- C4: evaluation at the failing input.  Domain `*` holds matchers `/a`
and `/b`, each with one `GET` handler.  `del_handler("GET", "/a", "*")`
succeeds and — because routing.py line 873 tests `len(domain_router.routes)`
for truthiness instead of emptiness — deletes the whole domain, dropping the
untouched `/b` matcher; conversely a domain emptied by the same call (single
matcher case) is kept. -/
theorem c4_cascade_eval :
    c4State.map (fun d =>
        (d.rawDomain, d.routers.map (fun r => (r.rawPath, r.routes.map (fun q => q.1)))))
      = [("*", [("/a", ["GET"]), ("/b", ["GET"])])] ∧
    (dynDelHandler c4State "GET" "/a" "*").1 = true ∧
    (dynDelHandler c4State "GET" "/a" "*").2 = [] ∧
    (dynDelHandler c4StateSingle "GET" "/a" "*").2.map
        (fun d => (d.rawDomain, d.routers.length)) = [("*", 0)] := by
  exact ⟨by decide, by decide, rfl, by decide⟩

/-- C5, counterexample.  `a.com` and `b.com` are of equal specificity
(neither suffix-matches the other), yet registering `a.com` then `b.com`
produces the list `[b.com, a.com]`: the re-sort reversed the relative order
of equal-rank entries instead of preserving it. -/
theorem c5_counterexample :
    domainMatch (mkDomainRouter "a.com") (some "b.com") = false ∧
    domainMatch (mkDomainRouter "b.com") (some "a.com") = false ∧
    (addDomain (addDomain [] "a.com") "b.com").map (fun d => d.rawDomain)
      = ["b.com", "a.com"] := by
  decide

/-- C6: with named interceptors `A` (suffix `""`) and `B` (suffix
`"example.com"`) inserted in order A then B, the entry list is sorted with
`B` first; the chain composed for host `api.example.com` runs `B`, then
`A`, then the terminal handler; for host `other.org` only `A` wraps and `B`
leaves no trace at all. -/
theorem c6_middleware_order :
    c6Entries.map (fun e => (e.suffix, e.name))
      = [("example.com", some "B"), ("", some "A")] ∧
    dynMwCall c6Entries ⟨some "api.example.com", "/", "GET"⟩ terminalHandler
      = ["B", "A", "terminal"] ∧
    dynMwCall c6Entries ⟨some "other.org", "/", "GET"⟩ terminalHandler
      = ["A", "terminal"] := by
  exact ⟨by decide, by decide, by decide⟩

/-- C8, counterexample.  `/a b` is a template with no dynamic segments, but
its percent-re-encoding differs from the raw string, so the compiled Plain
matcher applied to the raw template itself returns none, not the empty
variable map. -/
theorem c8_counterexample :
    isDynamicTemplate "/a b" = false ∧
    requotePath "/a b" = "/a%20b" ∧
    (mkPlain "/a b").matchFn "/a b" = none := by
  decide

/-- C3, counterexample.  A matcher registered without any handler (as
`DomainRouter.add_router` produces) matches the path, yet resolution
returns the empty allowed-methods set — the "405-equivalent" outcome is
produced with an empty, not non-empty, set and is indistinguishable from
the 404-equivalent one. -/
theorem c3_counterexample :
    (mkPlain "/a").matchFn "/a" = some [] ∧
    domainResolve c3EmptyTableDomain ⟨some "h", "/a", "GET"⟩
      = (none, (∅ : Finset String)) := by
  exact ⟨by decide, by decide⟩

/-- C3, amended.  `DomainRouter.resolve` scans matchers in order and
commits to the first whose full match succeeds: with a handler for the
request method (wildcard fallback included) that handler and the matcher's
allowed-methods set are returned; without one, no handler plus that
matcher's allowed-methods set — non-empty whenever the matcher's method
table is non-empty — is returned; when no matcher matches, no handler plus
the empty set is returned.  All outcomes are ordinary return values of the
total resolution function, never errors. -/
theorem c3_resolution_tristate (dr : DomainRouter) (req : Request) :
    ((∀ r ∈ dr.routers, r.matchFn req.path = none) →
      domainResolve dr req = (none, (∅ : Finset String))) ∧
    (∀ pre r post mi, dr.routers = pre ++ r :: post →
      (∀ x ∈ pre, x.matchFn req.path = none) →
      r.matchFn req.path = some mi →
      (∀ rt, getHandlerRoute r (pyToUpper req.method) = some rt →
        domainResolve dr req = (some ⟨mi, rt⟩, allowedSet r)) ∧
      (getHandlerRoute r (pyToUpper req.method) = none →
        domainResolve dr req = (none, allowedSet r)) ∧
      (r.routes ≠ [] → allowedSet r ≠ ∅)) := by
  constructor
  · intro h
    exact domainResolveGo_none req dr.routers h
  · intro pre r post mi hsplit hpre hmatch
    have hgo : domainResolve dr req = domainResolveGo req (r :: post) := by
      unfold domainResolve
      rw [hsplit]
      exact domainResolveGo_skip req pre (r :: post) hpre
    refine ⟨?_, ?_, allowedSet_ne_empty r⟩
    · intro rt hrt
      rw [hgo]
      simp [domainResolveGo, hmatch, hrt]
    · intro hnone
      rw [hgo]
      simp [domainResolveGo, hmatch, hnone]

/-- Witness for `c3_resolution_tristate`: a domain under `d.com` whose `/x`
matcher holds exactly a `GET` handler; resolving `POST /x` takes the
405-equivalent branch with the non-empty allowed set `{GET}`. -/
theorem c3_witness :
    domainResolve c3WitnessDomain ⟨some "d.com", "/x", "POST"⟩
      = (none, allowedSet c3WitnessRouter) ∧
    allowedSet c3WitnessRouter ≠ ∅ := by
  have h := (c3_resolution_tristate c3WitnessDomain
      ⟨some "d.com", "/x", "POST"⟩).2 [] c3WitnessRouter [] [] rfl
      (by simp)
      (show c3WitnessRouter.matchFn "/x" = some [] from by decide)
  exact ⟨h.2.1 (show getHandlerRoute c3WitnessRouter (pyToUpper "POST") = none
      from by decide),
    h.2.2 (by decide)⟩

/-- C5, amended.  Entries of equal specificity do not keep their original
relative order: the comparator never reports a tie, so `count_run` sees an
equal-rank pair as a strictly descending run and reverses it.  Inserting a
second equal-rank domain places it before the first, and likewise for
named middleware entries. -/
theorem c5_amended (d1 d2 n1 n2 s1 s2 : String) (f1 f2 : MwFunc) :
    (d1 ≠ d2 →
      domainMatch (mkDomainRouter d1) (some d2) = false →
      domainMatch (mkDomainRouter d2) (some d1) = false →
      (addDomain (addDomain [] d1) d2).map (fun d => d.rawDomain) = [d2, d1]) ∧
    (n1 ≠ n2 →
      pyEndsWith s1 s2 = false →
      pyEndsWith s2 s1 = false →
      (addNamedHandler (addNamedHandler [] f1 (some n1) (some s1)).2 f2
          (some n2) (some s2)).2.map (fun e => e.suffix) = [s2, s1]) := by
  constructor
  · intro hne hm1 hm2
    have h1 : addDomain [] d1 = [mkDomainRouter d1] := rfl
    have hfind : rawDomainMatch (mkDomainRouter d1) d2 = false := by
      simp [rawDomainMatch, mkDomainRouter]
      exact hne
    have hlt : domainSortLt (mkDomainRouter d2) (mkDomainRouter d1) = true := by
      simp [domainSortLt, mkDomainRouter]
      simpa [mkDomainRouter] using hm2
    rw [h1]
    unfold addDomain
    simp only [List.findIdx?, hfind, cond_false]
    rw [show ([mkDomainRouter d1] ++ [mkDomainRouter d2])
        = [mkDomainRouter d1, mkDomainRouter d2] from rfl]
    rw [pysort_pair_swap _ _ _ hlt]
    rfl
  · intro hne he1 he2
    have h1 : (addNamedHandler [] f1 (some n1) (some s1)).2
        = [⟨s1, some n1, f1⟩] := rfl
    have hfind : ((⟨s1, some n1, f1⟩ : MwEntry).name == some n2) = false := by
      simp
      exact hne
    have hlt : mwCmpLt ⟨s2, some n2, f2⟩ ⟨s1, some n1, f1⟩ = true := by
      simp [mwCmpLt, he1]
    rw [h1]
    unfold addNamedHandler
    simp only [List.findIdx?, hfind, cond_false]
    rw [show ([(⟨s1, some n1, f1⟩ : MwEntry)] ++ [⟨s2, some n2, f2⟩])
        = [⟨s1, some n1, f1⟩, ⟨s2, some n2, f2⟩] from rfl]
    rw [pysort_pair_swap _ _ _ hlt]
    rfl

/-- Witness for `c5_amended` at the equal-rank pairs
(`a.com`, `b.com`). -/
theorem c5_witness :
    (addDomain (addDomain [] "a.com") "b.com").map (fun d => d.rawDomain)
      = ["b.com", "a.com"] ∧
    (addNamedHandler (addNamedHandler [] (traceMw "A") (some "A")
        (some "a.com")).2 (traceMw "B") (some "B") (some "b.com")).2.map
        (fun e => e.suffix) = ["b.com", "a.com"] := by
  exact ⟨(c5_amended "a.com" "b.com" "A" "B" "a.com" "b.com"
      (traceMw "A") (traceMw "B")).1 (by decide) (by decide) (by decide),
    (c5_amended "a.com" "b.com" "A" "B" "a.com" "b.com"
      (traceMw "A") (traceMw "B")).2 (by decide) (by decide) (by decide)⟩

/-- C7: `DynamicRouter.resolve` delegates to the first domain whose
`domain_match` accepts the host — the result is exactly that single
domain's resolution, whatever the later domains hold and even when it
yields no handler — and a request without a `Host` header matches no
domain, yielding no handler and the empty allowed-methods set in every
router state. -/
theorem c7_first_domain_wins (s : DynState) (req : Request) :
    (req.host = none → dynResolve s req = (none, (∅ : Finset String))) ∧
    (∀ pre r post, s = pre ++ r :: post →
      (∀ x ∈ pre, domainMatch x req.host = false) →
      domainMatch r req.host = true →
      dynResolve s req = domainResolve r req) := by
  constructor
  · intro hnone
    induction s with
    | nil => rfl
    | cons d rest ih =>
      have hd : domainMatch d req.host = false := by
        rw [hnone]
        rfl
      simpa [dynResolve, dynResolveGo, hd] using ih
  · intro pre r post hsplit hpre hr
    unfold dynResolve
    rw [hsplit, dynResolveGo_skip req pre (r :: post) hpre]
    simp [dynResolveGo, hr]

/-- Witness for `c7_first_domain_wins`: the empty domain `a.com` shadows a
catch-all domain holding a `GET /a` handler, so resolution stops at
`a.com` and reports the empty result; and a host-less request resolves to
the empty result in the same state. -/
theorem c7_witness :
    dynResolve [mkDomainRouter "a.com", c7StarDomain] ⟨some "a.com", "/a", "GET"⟩
      = (none, (∅ : Finset String)) ∧
    dynResolve [mkDomainRouter "a.com", c7StarDomain] ⟨none, "/a", "GET"⟩
      = (none, (∅ : Finset String)) := by
  constructor
  · have h := (c7_first_domain_wins [mkDomainRouter "a.com", c7StarDomain]
        ⟨some "a.com", "/a", "GET"⟩).2 [] (mkDomainRouter "a.com")
        [c7StarDomain] rfl (by simp)
        (show domainMatch (mkDomainRouter "a.com") (some "a.com") = true
          from by decide)
    exact h.trans (by decide)
  · exact (c7_first_domain_wins [mkDomainRouter "a.com", c7StarDomain]
      ⟨none, "/a", "GET"⟩).1 rfl

/-- C9: when the request carries no `Host` header the composed chain wraps
every entry — whatever its domain suffix — in priority order around the
terminal handler, as witnessed by the recorded trace. -/
theorem c9_no_host_wraps_all (specs : List (String × String))
    (path method : String) (handler : MwHandler) :
    dynMwCall (specs.map traceEntry) ⟨none, path, method⟩ handler
      = specs.map (fun t => t.2) ++ handler ⟨none, path, method⟩ := by
  show (((specs.map traceEntry).reverse.foldl (fun acc e => mwWrap e acc)
      handler) ⟨none, path, method⟩)
    = specs.map (fun t => t.2) ++ handler ⟨none, path, method⟩
  rw [List.foldl_reverse]
  induction specs with
  | nil => rfl
  | cons t ts ih =>
    simpa [mwWrap, traceEntry, traceMw] using ih

/-- Witness for `c9_no_host_wraps_all`: both a suffix-restricted and an
unrestricted entry wrap when the host is absent. -/
theorem c9_witness :
    dynMwCall ([("example.com", "B"), ("", "A")].map traceEntry)
      ⟨none, "/", "GET"⟩ terminalHandler = ["B", "A", "terminal"] :=
  (c9_no_host_wraps_all [("example.com", "B"), ("", "A")] "/" "GET"
    terminalHandler).trans rfl

/-- C10: constructing a `DynamicMiddleware` with two or more initial
unnamed middlewares raises `AttributeError` from the constructor's sort
(middlewares.py line 49 compares the handler tuples with `endswith`),
while construction with zero or one initial middleware succeeds. -/
theorem c10_init_sort_raises :
    (∀ mws : List MwFunc, 2 ≤ mws.length →
      dynMwInit mws = .error .attributeError) ∧
    dynMwInit [] = .ok [] ∧
    (∀ f : MwFunc, dynMwInit [f] = .ok [⟨"", none, f⟩]) := by
  refine ⟨?_, rfl, fun f => rfl⟩
  intro mws h
  match mws with
  | [] => simp at h
  | [a] => simp at h
  | a :: b :: rest => rfl

/-- Witness for `c10_init_sort_raises` with two concrete middlewares. -/
theorem c10_witness :
    2 ≤ ([traceMw "x", traceMw "y"] : List MwFunc).length ∧
    dynMwInit [traceMw "x", traceMw "y"] = .error .attributeError := by
  exact ⟨by decide,
    (c10_init_sort_raises.1 [traceMw "x", traceMw "y"] (by decide))⟩

/-- C8, amended.  For every template, `matchesRaw` is exact string equality
with the registration string; `matchFull` applied to the raw template
returns the empty variable map exactly when the template's
percent-re-encoding leaves it unchanged, and for every template the quoter
changes, `matchFull` of the raw template returns none (the counterexample
instantiates this at `/a b`). -/
theorem c8_plain_round_trip (t s : String) :
    ((mkPlain t).matchFn t = some [] ↔ requotePath t = t) ∧
    (requotePath t ≠ t → (mkPlain t).matchFn t = none) ∧
    (rawMatch (mkPlain t) s = true ↔ s = t) := by
  refine ⟨?_, ?_, ?_⟩
  · by_cases h : requotePath t = t <;> simp [mkPlain, h]
  · intro h
    simp [mkPlain, h]
  · unfold rawMatch mkPlain
    simp only [beq_iff_eq]
    exact eq_comm

/-- Witness for `c8_plain_round_trip` in both directions: at `/a` (whose
re-encoding is itself, so the raw template self-matches) and at `/a b`
(which the quoter changes, so the raw template does not match). -/
theorem c8_witness :
    requotePath "/a" = "/a" ∧
    (mkPlain "/a").matchFn "/a" = some [] ∧
    requotePath "/a b" ≠ "/a b" ∧
    (mkPlain "/a b").matchFn "/a b" = none ∧
    rawMatch (mkPlain "/a") "/a" = true ∧
    rawMatch (mkPlain "/a") "/b" = false := by
  refine ⟨by decide, (c8_plain_round_trip "/a" "/a").1.mpr (by decide), by decide,
    (c8_plain_round_trip "/a b" "/a b").2.1 (by decide), ?_, by decide⟩
  exact (c8_plain_round_trip "/a" "/a").2.2.mpr rfl

end AiohttpDynamic
